import Mathlib

/-!
# Verification of the speaker-database import pipeline

Shallow embedding of the CSV-import / deduplication / bulk-insert pipeline of
the Speakers-Data-Scraper-Database repository (`src/api/index.js`,
`src/components/UserPanel.tsx`, `src/mockApi.ts`, `src/types.ts`), together
with proofs and refutations of the specification's claims about it.

JavaScript strings are modelled as Lean `String`; absent object fields are
modelled as `Option` / the empty string as indicated at each definition.
`String.prototype.toLowerCase` / `toUpperCase` are modelled character-wise
with `Char.toLower` / `Char.toUpper` (the repository only ever feeds them
ASCII header names and email addresses), and the regular expression `\s` /
`String.prototype.trim` with `Char.isWhitespace` (see `jsTrim`).
-/

namespace SpeakerDB

/-- The `SpeakerData` record shape, from `src/types.ts`. -/
structure SpeakerData where
  id : String
  createdBy : String
  firstName : String
  lastName : String
  title : String
  company : String
  businessEmail : String
  country : String
  website : String
  fullName : String
  isEmailValid : Bool
  isLinkedInValid : Bool
  isWebsiteValid : Bool
  extractedRole : String
  isCeo : Bool
  isSpeaker : Bool
  isAuthor : Bool
  industry : String
  personLinkedinUrl : String
  stage : String
  phoneNumber : String
  employees : String
  location : String
  city : String
  state : String
  companyAddress : String
  companyCity : String
  companyState : String
  companyCountry : String
  companyPhone : String
  secondaryEmail : String
  speakingTopic : String
  speakingLink : String
  deriving DecidableEq, Repr

/-- A `SpeakerData` value with every string field empty and every flag false;
used to build concrete records in examples. -/
def SpeakerData.blank : SpeakerData where
  id := ""
  createdBy := ""
  firstName := ""
  lastName := ""
  title := ""
  company := ""
  businessEmail := ""
  country := ""
  website := ""
  fullName := ""
  isEmailValid := false
  isLinkedInValid := false
  isWebsiteValid := false
  extractedRole := ""
  isCeo := false
  isSpeaker := false
  isAuthor := false
  industry := ""
  personLinkedinUrl := ""
  stage := ""
  phoneNumber := ""
  employees := ""
  location := ""
  city := ""
  state := ""
  companyAddress := ""
  companyCity := ""
  companyState := ""
  companyCountry := ""
  companyPhone := ""
  secondaryEmail := ""
  speakingTopic := ""
  speakingLink := ""

/-- Model of JavaScript `String.prototype.toLowerCase` (ASCII range). -/
def jsToLowerCase (s : String) : String :=
  String.mk (s.data.map Char.toLower)

/-- Model of JavaScript `String.prototype.toUpperCase` (ASCII range). -/
def jsToUpperCase (s : String) : String :=
  String.mk (s.data.map Char.toUpper)

/-- The header normalizer `normalizeKey` from `src/api/index.js` lines 60-63
and `src/components/UserPanel.tsx` lines 17-20:

`if (!key) return ''; return key.toLowerCase().replace(/\s+/g, '');`

A JavaScript string is falsy exactly when it is empty; `replace(/\s+/g, '')`
deletes every whitespace character. -/
def normalizeKey (key : String) : String :=
  if key = "" then ""
  else String.mk ((key.data.map Char.toLower).filter (fun c => !c.isWhitespace))

/-- The spec's description of the normalizer (§4.1): the input lower-cased
with all whitespace removed. -/
def specNormalize (key : String) : String :=
  String.mk (((jsToLowerCase key).data).filter (fun c => !c.isWhitespace))

theorem char_toLower_toUpper (c : Char) : c.toUpper.toLower = c.toLower := by
  unfold Char.toUpper
  by_cases h : 97 ≤ c.toNat ∧ c.toNat ≤ 122
  · rw [if_pos h]
    obtain ⟨h1, h2⟩ := h
    interval_cases h3 : c.toNat <;>
      · have hc : c = Char.ofNat c.toNat := (Char.ofNat_toNat c).symm
        rw [h3] at hc
        subst hc
        decide
  · rw [if_neg h]

theorem normalizeKey_eq_specNormalize (key : String) :
    normalizeKey key = specNormalize key := by
  unfold normalizeKey specNormalize jsToLowerCase
  by_cases h : key = ""
  · subst h; rfl
  · rw [if_neg h]

theorem map_toLower_map_toUpper (l : List Char) :
    (l.map Char.toUpper).map Char.toLower = l.map Char.toLower := by
  induction l with
  | nil => rfl
  | cons c cs ih => simp [ih, char_toLower_toUpper]

/-- **C7.** The header normalizer returns its input lower-cased with all
whitespace removed; empty input returns the empty string; it is invariant
under upper-casing its input; and its output contains no whitespace
characters. (`normalizeKey`, `src/api/index.js` lines 60-63 and
`src/components/UserPanel.tsx` lines 17-20.) -/
theorem claim_C7_header_normalizer :
    normalizeKey "" = "" ∧
    (∀ k, normalizeKey k = specNormalize k) ∧
    (∀ k, normalizeKey (jsToUpperCase k) = normalizeKey k) ∧
    (∀ k c, c ∈ (normalizeKey k).data → c.isWhitespace = false) := by
  refine ⟨rfl, normalizeKey_eq_specNormalize, ?_, ?_⟩
  · intro k
    by_cases hk : k = ""
    · subst hk; rfl
    · have hdata : k.data ≠ [] := by
        intro hnil
        exact hk (String.ext hnil)
      have hne : jsToUpperCase k ≠ "" := by
        intro hcon
        have : (jsToUpperCase k).data = [] := by rw [hcon]
        simp only [jsToUpperCase] at this
        exact hdata (List.map_eq_nil_iff.mp this)
      rw [normalizeKey, if_neg hne, normalizeKey, if_neg hk]
      have : (jsToUpperCase k).data = k.data.map Char.toUpper := rfl
      rw [this, map_toLower_map_toUpper]
  · intro k c hc
    by_cases hk : k = ""
    · subst hk; simp [normalizeKey] at hc
    · rw [normalizeKey, if_neg hk] at hc
      have : c ∈ (k.data.map Char.toLower).filter (fun c => !c.isWhitespace) := hc
      have := (List.mem_filter.mp this).2
      simpa using this

/-- Witness for C7 at a concrete header. -/
theorem claim_C7_witness :
    ('a' ∈ (normalizeKey "A b").data) ∧ ('a' : Char).isWhitespace = false :=
  ⟨by decide, claim_C7_header_normalizer.2.2.2 "A b" 'a' (by decide)⟩

/-! ## The Deduplicator

`src/api/index.js` lines 341-348 (POST `/speakers/bulk`):

```js
const seenEmails = new Set();
const uniqueSpeakers = speakers.filter(s => {
    if (!s.businessEmail) return false;
    const lowerCaseEmail = s.businessEmail.toLowerCase();
    const duplicate = seenEmails.has(lowerCaseEmail);
    seenEmails.add(lowerCaseEmail);
    return !duplicate;
});
```

The seen-set is threaded left to right; re-adding an element to a JS `Set`
is a no-op, so the model only inserts unseen emails. A record whose
`businessEmail` is falsy (absent fields arrive as the empty string in this
model) is dropped without touching the seen-set. -/

/-- The bulk-endpoint deduplicating filter, seen-set made explicit. -/
def dedupeAux (seen : List String) : List SpeakerData → List SpeakerData
  | [] => []
  | s :: rest =>
    if s.businessEmail = "" then dedupeAux seen rest
    else
      if jsToLowerCase s.businessEmail ∈ seen then dedupeAux seen rest
      else s :: dedupeAux (jsToLowerCase s.businessEmail :: seen) rest

/-- The deduplicator of POST `/speakers/bulk` (`src/api/index.js` 341-348). -/
def dedupeSpeakers (speakers : List SpeakerData) : List SpeakerData :=
  dedupeAux [] speakers

/-- The deduplicating filter of POST `/speakers/upload-csv`
(`src/api/index.js` 465-471): identical except that it does not re-check
for a falsy `businessEmail` (the coercer has already excluded those rows). -/
def csvDedupeAux (seen : List String) : List SpeakerData → List SpeakerData
  | [] => []
  | s :: rest =>
    if jsToLowerCase s.businessEmail ∈ seen then csvDedupeAux seen rest
    else s :: csvDedupeAux (jsToLowerCase s.businessEmail :: seen) rest

/-- The deduplicator of POST `/speakers/upload-csv`. -/
def csvDedupe (speakers : List SpeakerData) : List SpeakerData :=
  csvDedupeAux [] speakers

/-- The spec's description of the deduplicator (§4.4): keep, for each
distinct lower-cased business email, exactly the first occurrence, in
original order. -/
def specFirstKeeps : List SpeakerData → List SpeakerData
  | [] => []
  | s :: rest =>
    s :: specFirstKeeps (rest.filter
      (fun t => !(jsToLowerCase t.businessEmail == jsToLowerCase s.businessEmail)))
termination_by l => l.length
decreasing_by
  simp only [List.length_cons]
  exact Nat.lt_succ_of_le (List.length_filter_le _ _)

theorem dedupeAux_eq_csvDedupeAux (seen : List String) (l : List SpeakerData)
    (hl : ∀ s ∈ l, s.businessEmail ≠ "") :
    dedupeAux seen l = csvDedupeAux seen l := by
  induction l generalizing seen with
  | nil => rfl
  | cons s rest ih =>
    rw [dedupeAux, csvDedupeAux, if_neg (hl s (List.mem_cons_self s rest))]
    have hrest : ∀ t ∈ rest, t.businessEmail ≠ "" :=
      fun t ht => hl t (List.mem_cons_of_mem s ht)
    by_cases hmem : jsToLowerCase s.businessEmail ∈ seen
    · rw [if_pos hmem, if_pos hmem, ih _ hrest]
    · rw [if_neg hmem, if_neg hmem, ih _ hrest]

theorem specFirstKeeps_nil : specFirstKeeps [] = [] := by
  simp [specFirstKeeps.eq_def]

theorem specFirstKeeps_cons (s : SpeakerData) (rest : List SpeakerData) :
    specFirstKeeps (s :: rest) =
      s :: specFirstKeeps (rest.filter
        (fun t => !(jsToLowerCase t.businessEmail == jsToLowerCase s.businessEmail))) := by
  rw [specFirstKeeps.eq_def]

theorem csvDedupeAux_spec (l : List SpeakerData) (seen : List String) :
    csvDedupeAux seen l =
      specFirstKeeps (l.filter (fun s => !(decide (jsToLowerCase s.businessEmail ∈ seen)))) := by
  induction l generalizing seen with
  | nil => rw [List.filter_nil, specFirstKeeps_nil, csvDedupeAux]
  | cons s rest ih =>
    rw [csvDedupeAux, List.filter_cons]
    by_cases hmem : jsToLowerCase s.businessEmail ∈ seen
    · rw [if_pos hmem]
      simp only [hmem, decide_True, Bool.not_true, Bool.false_eq_true, if_false]
      exact ih seen
    · rw [if_neg hmem]
      simp only [hmem, decide_False, Bool.not_false, if_true]
      rw [specFirstKeeps_cons, ih (jsToLowerCase s.businessEmail :: seen)]
      congr 1
      rw [List.filter_filter]
      congr 1
      apply List.filter_congr
      intro t _
      by_cases h1 : jsToLowerCase t.businessEmail = jsToLowerCase s.businessEmail <;>
        by_cases h2 : jsToLowerCase t.businessEmail ∈ seen <;>
          simp [h1, h2]

theorem specFirstKeeps_sublist : ∀ l : List SpeakerData, List.Sublist (specFirstKeeps l) l
  | [] => by rw [specFirstKeeps_nil]
  | s :: rest => by
    rw [specFirstKeeps_cons]
    exact List.Sublist.cons₂ s
      ((specFirstKeeps_sublist _).trans (List.filter_sublist rest))
termination_by l => l.length
decreasing_by
  simp only [List.length_cons]
  exact Nat.lt_succ_of_le (List.length_filter_le _ _)

/-- **C3.** On coerced records (all with non-empty `businessEmail`), both
copies of the deduplicator return exactly the subsequence keeping, for each
distinct lower-cased `businessEmail`, the first occurrence in original
order, and that result is a subsequence of the input (original relative
order preserved). -/
theorem claim_C3_deduplicator (l : List SpeakerData)
    (hl : ∀ s ∈ l, s.businessEmail ≠ "") :
    dedupeSpeakers l = specFirstKeeps l ∧
    csvDedupe l = specFirstKeeps l ∧
    List.Sublist (specFirstKeeps l) l := by
  have hcsv : csvDedupe l = specFirstKeeps l := by
    rw [csvDedupe, csvDedupeAux_spec]
    congr 1
    simp
  refine ⟨?_, hcsv, specFirstKeeps_sublist l⟩
  rw [dedupeSpeakers, dedupeAux_eq_csvDedupeAux [] l hl]
  exact hcsv

/-- Witness for C3 on a concrete batch with a case-insensitive duplicate. -/
theorem claim_C3_witness :
    (∀ s ∈ [{ SpeakerData.blank with businessEmail := "a@x.com", firstName := "A" },
            { SpeakerData.blank with businessEmail := "A@X.com", firstName := "B" }],
        s.businessEmail ≠ "") ∧
    dedupeSpeakers [{ SpeakerData.blank with businessEmail := "a@x.com", firstName := "A" },
                    { SpeakerData.blank with businessEmail := "A@X.com", firstName := "B" }] =
      specFirstKeeps [{ SpeakerData.blank with businessEmail := "a@x.com", firstName := "A" },
                      { SpeakerData.blank with businessEmail := "A@X.com", firstName := "B" }] :=
  ⟨by decide,
   (claim_C3_deduplicator _ (by decide)).1⟩

/-! ## The store and the bulk-upsert transaction

The repository contains no DDL for the `speakers` table; its shape is
implied by the queries (`ON CONFLICT ("businessEmail") DO NOTHING` requires
a unique constraint on `"businessEmail"`). The store is modelled as a list
of rows; inserts compare `businessEmail` by exact string equality, the
semantics of a plain Postgres unique constraint on a text column. -/

/-- Modelled from the spec: the store's "insert, skip on business-email
conflict" primitive (§6, §4.5), i.e. the effect of one row of a multi-row
`INSERT ... ON CONFLICT ("businessEmail") DO NOTHING` against the current
transaction-local store. The table DDL itself is not in the repository;
conflict comparison is exact string equality, as for a plain unique
constraint. Returns the new store and the number of rows inserted (0/1). -/
def insertSpeakerRow (store : List SpeakerData) (row : SpeakerData) :
    List SpeakerData × Nat :=
  if store.any (fun r => r.businessEmail == row.businessEmail) then (store, 0)
  else (store ++ [row], 1)

/-- One chunk of the bulk insert (`src/api/index.js` 361-388): each row gets
a fresh id (`speaker-${Date.now()}-${Math.random()...}`, modelled by the id
supply `gen` applied to a running row counter) and is inserted with
conflict-skip; the statement's `RETURNING id` row count is accumulated. -/
def insertRows (gen : Nat → String) :
    Nat → List SpeakerData → List SpeakerData → List SpeakerData × Nat
  | _, store, [] => (store, 0)
  | ctr, store, s :: rest =>
    ((insertRows gen (ctr + 1) (insertSpeakerRow store { s with id := gen ctr }).1 rest).1,
     (insertSpeakerRow store { s with id := gen ctr }).2 +
       (insertRows gen (ctr + 1) (insertSpeakerRow store { s with id := gen ctr }).1 rest).2)

/-- Fuel-indexed helper for `chunks200`; the fuel only bounds the recursion
depth and is irrelevant as long as it is at least the list length. -/
def chunksGo : Nat → List SpeakerData → List (List SpeakerData)
  | _, [] => []
  | 0, _ :: _ => []
  | fuel + 1, s :: rest => ((s :: rest).take 200) :: chunksGo fuel ((s :: rest).drop 200)

/-- The chunking of `uniqueSpeakers` into slices of `batchSize = 200`
(`src/api/index.js` 359-362). -/
def chunks200 (l : List SpeakerData) : List (List SpeakerData) :=
  chunksGo l.length l

theorem chunksGo_fuel_irrel :
    ∀ (fuel fuel' : Nat) (l : List SpeakerData),
      l.length ≤ fuel → l.length ≤ fuel' → chunksGo fuel l = chunksGo fuel' l := by
  intro fuel
  induction fuel with
  | zero =>
    intro fuel' l h _
    match l, fuel' with
    | [], 0 => rfl
    | [], f' + 1 => rfl
    | s :: rest, _ => simp at h
  | succ f ih =>
    intro fuel' l h h'
    match l, fuel' with
    | [], 0 => rfl
    | [], f' + 1 => rfl
    | s :: rest, 0 => simp at h'
    | s :: rest, f' + 1 =>
      rw [chunksGo, chunksGo]
      congr 1
      apply ih
      · simp only [List.length_drop, List.length_cons]
        simp only [List.length_cons] at h
        omega
      · simp only [List.length_drop, List.length_cons]
        simp only [List.length_cons] at h'
        omega

theorem chunks200_nil : chunks200 [] = [] := rfl

theorem chunks200_cons (s : SpeakerData) (rest : List SpeakerData) :
    chunks200 (s :: rest) =
      ((s :: rest).take 200) :: chunks200 ((s :: rest).drop 200) := by
  rw [chunks200, chunks200]
  show chunksGo (rest.length + 1) (s :: rest) = _
  rw [chunksGo]
  congr 1
  apply chunksGo_fuel_irrel
  · simp only [List.length_drop, List.length_cons]
    omega
  · exact Nat.le_refl _

/-- The chunk loop inside the `BEGIN`/`COMMIT` block (`src/api/index.js`
356-388), with an explicit failure oracle: `failAt = some k` makes the
`k`-th chunk's query throw (modelling an arbitrary mid-transaction database
failure), `none` lets every chunk succeed. Returns the transaction-local
store and the accumulated imported count, or the thrown error. -/
def runChunks (gen : Nat → String) :
    Nat → List SpeakerData → Option Nat → List (List SpeakerData) →
    Except String (List SpeakerData × Nat)
  | _, store, _, [] => .ok (store, 0)
  | ctr, store, failAt, chunk :: rest =>
    if failAt = some 0 then .error "simulated mid-transaction failure"
    else
      match runChunks gen (ctr + chunk.length) (insertRows gen ctr store chunk).1
          (failAt.map (fun n => n - 1)) rest with
      | .ok (st, n) => .ok (st, (insertRows gen ctr store chunk).2 + n)
      | .error e => .error e

/-- The request body of POST `/speakers/bulk`: `req.body` may be absent,
a non-array value, or an array of speaker records (absent string fields
arrive as the empty string in this model). -/
inductive BulkBody where
  | missing
  | notArray
  | array (speakers : List SpeakerData)

/-- POST `/speakers/bulk` (`src/api/index.js` 335-403): guard, in-batch
dedupe, early return when nothing survives the dedupe, then the chunked
insert inside one transaction — `COMMIT` keeps the transaction-local store,
any failure `ROLLBACK`s to the original store and reports one error.
Returns the response (`{importedCount, skippedCount}` or an error message)
paired with the store after the request. -/
def bulkEndpoint (gen : Nat → String) (store : List SpeakerData)
    (body : BulkBody) (failAt : Option Nat) :
    Except String (Nat × Nat) × List SpeakerData :=
  match body with
  | .missing => (.error "No speaker data provided.", store)
  | .notArray => (.error "No speaker data provided.", store)
  | .array speakers =>
    if speakers.length = 0 then (.error "No speaker data provided.", store)
    else
      if (dedupeSpeakers speakers).length = 0 then (.ok (0, speakers.length), store)
      else
        match runChunks gen 0 store failAt (chunks200 (dedupeSpeakers speakers)) with
        | .ok (newStore, imported) =>
          (.ok (imported, speakers.length - imported), newStore)
        | .error _ =>
          (.error "An error occurred during the import. The operation was rolled back.",
           store)

/-- POST `/speakers` (`src/api/index.js` 277-292): a plain single-row
`INSERT` with a fresh id and no `ON CONFLICT` clause. The store's unique
constraint on `"businessEmail"` (modelled from the spec, §4.6: "the Bulk
Upsert's database-level uniqueness constraint is the actual invariant
enforcer") makes a conflicting insert throw, which the handler reports as
an error; otherwise the row is appended. -/
def singleAddEndpoint (gen : Nat → String) (store : List SpeakerData)
    (s : SpeakerData) : Except String SpeakerData × List SpeakerData :=
  let row := { s with id := gen 0 }
  if store.any (fun r => r.businessEmail == row.businessEmail) then
    (.error "duplicate key value violates unique constraint", store)
  else (.ok row, store ++ [row])

/-- GET `/speakers/email-check/:email` (`src/api/index.js` 319-332), the
`isBusinessEmailInUse` client call (`src/mockApi.ts` 127-136): whether any
stored row has exactly that `businessEmail`, excluding the row with id
`exclude` when supplied. -/
def emailCheckEndpoint (store : List SpeakerData) (email : String)
    (exclude : Option String) : Bool :=
  match exclude with
  | some ex => store.any (fun r => r.businessEmail == email && !(r.id == ex))
  | none => store.any (fun r => r.businessEmail == email)

/-- Store states reachable from an empty table through the two insert
operations named by the spec's invariant: single add (POST `/speakers`)
and bulk import (POST `/speakers/bulk`), each with an arbitrary id supply,
body and failure behaviour. -/
inductive Reachable : List SpeakerData → Prop where
  | init : Reachable []
  | single (st : List SpeakerData) (gen : Nat → String) (s : SpeakerData) :
      Reachable st → Reachable (singleAddEndpoint gen st s).2
  | bulk (st : List SpeakerData) (gen : Nat → String) (body : BulkBody)
      (failAt : Option Nat) :
      Reachable st → Reachable (bulkEndpoint gen st body failAt).2

/-! ## Guard and empty-batch behaviour of POST `/speakers/bulk` -/

/-- **C9.** A bulk request whose body is missing, not an array, or an empty
array is answered with the error `'No speaker data provided.'` (never an
`{importedCount, skippedCount}` result), and the store is untouched —
whatever the id supply and whatever failure behaviour the database would
have shown. -/
theorem claim_C9_bulk_guard (gen : Nat → String) (store : List SpeakerData)
    (failAt : Option Nat) :
    bulkEndpoint gen store .missing failAt = (.error "No speaker data provided.", store) ∧
    bulkEndpoint gen store .notArray failAt = (.error "No speaker data provided.", store) ∧
    bulkEndpoint gen store (.array []) failAt = (.error "No speaker data provided.", store) :=
  ⟨rfl, rfl, rfl⟩

theorem dedupeAux_all_empty (seen : List String) (l : List SpeakerData)
    (h : ∀ s ∈ l, s.businessEmail = "") : dedupeAux seen l = [] := by
  induction l generalizing seen with
  | nil => rfl
  | cons s rest ih =>
    rw [dedupeAux, if_pos (h s (List.mem_cons_self s rest))]
    exact ih seen (fun t ht => h t (List.mem_cons_of_mem s ht))

/-- **C10.** A non-empty batch in which every record has a falsy
`businessEmail` is fully removed by the dedupe filter, so the endpoint
returns `{importedCount: 0, skippedCount: N}` with `N` the submitted size
and leaves the store unchanged; the result does not depend on the failure
oracle or the id supply, because no transaction and no insert is ever
issued. -/
theorem claim_C10_all_falsy_batch (gen : Nat → String) (store : List SpeakerData)
    (batch : List SpeakerData) (failAt : Option Nat)
    (hne : batch ≠ [])
    (hall : ∀ s ∈ batch, s.businessEmail = "") :
    bulkEndpoint gen store (.array batch) failAt = (.ok (0, batch.length), store) := by
  have h0 : ¬(batch.length = 0) := by
    simpa [List.length_eq_zero] using hne
  have hd : dedupeSpeakers batch = [] := dedupeAux_all_empty [] batch hall
  rw [bulkEndpoint, if_neg h0, hd]
  rfl

/-- Witness for C10 on a one-record batch with an empty email. -/
theorem claim_C10_witness :
    ([SpeakerData.blank] ≠ ([] : List SpeakerData)) ∧
    (∀ s ∈ [SpeakerData.blank], s.businessEmail = "") ∧
    bulkEndpoint (fun _ => "fresh-id") [] (.array [SpeakerData.blank]) (some 0) =
      (.ok (0, 1), []) :=
  ⟨by decide, by decide,
   claim_C10_all_falsy_batch (fun _ => "fresh-id") [] [SpeakerData.blank] (some 0)
     (by decide) (by decide)⟩

/-! ## Transaction atomicity and the returned counts -/

theorem runChunks_fail (gen : Nat → String) :
    ∀ (chunks : List (List SpeakerData)) (k ctr : Nat) (store : List SpeakerData),
      k < chunks.length →
      runChunks gen ctr store (some k) chunks =
        .error "simulated mid-transaction failure" := by
  intro chunks
  induction chunks with
  | nil => intro k ctr store h; simp at h
  | cons c rest ih =>
    intro k ctr store h
    cases k with
    | zero => rw [runChunks, if_pos rfl]
    | succ j =>
      rw [runChunks, if_neg (by simp)]
      have hmap : (some (j + 1)).map (fun n => n - 1) = some j := by simp
      rw [hmap, ih j _ _ (by simpa using h)]

theorem dedupeSpeakers_nil : dedupeSpeakers [] = [] := rfl

/-- **C2.** If any chunk of the bulk insert fails mid-transaction — the
`k`-th of the chunks built from the deduplicated batch, for any `k` within
range — the whole request answers with the single aggregate error message
and the resulting store is exactly the pre-request store: every record
inserted by earlier chunks is rolled back. -/
theorem claim_C2_transaction_rollback (gen : Nat → String)
    (store : List SpeakerData) (batch : List SpeakerData) (k : Nat)
    (hk : k < (chunks200 (dedupeSpeakers batch)).length) :
    bulkEndpoint gen store (.array batch) (some k) =
      (.error "An error occurred during the import. The operation was rolled back.",
       store) := by
  have hdne : dedupeSpeakers batch ≠ [] := by
    intro hnil
    rw [hnil, chunks200_nil] at hk
    simp at hk
  have hbne : ¬(batch.length = 0) := by
    intro h0
    rw [List.length_eq_zero] at h0
    rw [h0, dedupeSpeakers_nil] at hdne
    exact hdne rfl
  have h1 : ¬((dedupeSpeakers batch).length = 0) := by
    simpa [List.length_eq_zero] using hdne
  rw [bulkEndpoint, if_neg hbne, if_neg h1,
    runChunks_fail gen (chunks200 (dedupeSpeakers batch)) k 0 store hk]

set_option maxRecDepth 40000 in
/-- Witness for C2: a 201-record batch makes two chunks; a failure in the
second chunk (index 1) rolls the whole import back. -/
theorem claim_C2_witness :
    (1 < (chunks200 (dedupeSpeakers ((List.range 201).map (fun i =>
        { SpeakerData.blank with businessEmail := toString i ++ "@x.com" })))).length) ∧
    bulkEndpoint (fun n => toString n) [] (.array ((List.range 201).map (fun i =>
        { SpeakerData.blank with businessEmail := toString i ++ "@x.com" }))) (some 1) =
      (.error "An error occurred during the import. The operation was rolled back.",
       []) :=
  ⟨by decide, claim_C2_transaction_rollback _ _ _ 1 (by decide)⟩

deriving instance DecidableEq for Except

theorem insertSpeakerRow_count_le (store : List SpeakerData) (row : SpeakerData) :
    (insertSpeakerRow store row).2 ≤ 1 := by
  rw [insertSpeakerRow]
  split <;> simp

theorem insertRows_count_le (gen : Nat → String) :
    ∀ (rows : List SpeakerData) (ctr : Nat) (store : List SpeakerData),
      (insertRows gen ctr store rows).2 ≤ rows.length := by
  intro rows
  induction rows with
  | nil => intro ctr store; exact Nat.le_refl 0
  | cons s rest ih =>
    intro ctr store
    rw [insertRows, List.length_cons]
    have h1 := insertSpeakerRow_count_le store { s with id := gen ctr }
    have h2 := ih (ctr + 1) (insertSpeakerRow store { s with id := gen ctr }).1
    omega

theorem runChunks_ok_count_le (gen : Nat → String) :
    ∀ (chunks : List (List SpeakerData)) (ctr : Nat) (store : List SpeakerData)
      (failAt : Option Nat) (st : List SpeakerData) (n : Nat),
      runChunks gen ctr store failAt chunks = .ok (st, n) →
      n ≤ (chunks.map List.length).sum := by
  intro chunks
  induction chunks with
  | nil =>
    intro ctr store failAt st n h
    rw [runChunks] at h
    cases h
    exact Nat.le_refl 0
  | cons c rest ih =>
    intro ctr store failAt st n h
    rw [runChunks] at h
    by_cases hf : failAt = some 0
    · rw [if_pos hf] at h; cases h
    · rw [if_neg hf] at h
      cases hrun : runChunks gen (ctr + c.length) (insertRows gen ctr store c).1
          (failAt.map (fun n => n - 1)) rest with
      | ok p =>
        rw [hrun] at h
        cases h
        have h1 := insertRows_count_le gen c ctr store
        have h2 := ih _ _ _ _ _ hrun
        simp only [List.map_cons, List.sum_cons]
        omega
      | error e => rw [hrun] at h; cases h

theorem chunks200_flatten :
    ∀ l : List SpeakerData, (chunks200 l).flatten = l
  | [] => by rw [chunks200_nil]; rfl
  | s :: rest => by
    rw [chunks200_cons, List.flatten_cons,
      chunks200_flatten ((s :: rest).drop 200)]
    exact List.take_append_drop 200 (s :: rest)
termination_by l => l.length
decreasing_by
  simp only [List.length_drop, List.length_cons]
  omega

theorem chunks200_sum_length (l : List SpeakerData) :
    ((chunks200 l).map List.length).sum = l.length := by
  rw [← List.length_flatten, chunks200_flatten]

theorem dedupeAux_length_le (l : List SpeakerData) :
    ∀ seen : List String, (dedupeAux seen l).length ≤ l.length := by
  induction l with
  | nil => intro seen; exact Nat.le_refl 0
  | cons s rest ih =>
    intro seen
    rw [dedupeAux, List.length_cons]
    split
    · exact Nat.le_succ_of_le (ih seen)
    · split
      · exact Nat.le_succ_of_le (ih seen)
      · rw [List.length_cons]
        exact Nat.succ_le_succ (ih _)

/-- **C4.** Whenever the bulk import answers with a successful
`{importedCount, skippedCount}` result, the two counts sum to the size of
the original, pre-deduplication batch: records removed as in-batch
duplicates and records skipped by a store conflict are both folded into
`skippedCount`. -/
theorem claim_C4_counts (gen : Nat → String) (store : List SpeakerData)
    (batch : List SpeakerData) (failAt : Option Nat) (i k : Nat)
    (st' : List SpeakerData)
    (h : bulkEndpoint gen store (.array batch) failAt = (.ok (i, k), st')) :
    i + k = batch.length := by
  rw [bulkEndpoint] at h
  by_cases h0 : batch.length = 0
  · rw [if_pos h0] at h; cases h
  · rw [if_neg h0] at h
    by_cases h1 : (dedupeSpeakers batch).length = 0
    · rw [if_pos h1] at h
      cases h
      omega
    · rw [if_neg h1] at h
      cases hrun : runChunks gen 0 store failAt (chunks200 (dedupeSpeakers batch)) with
      | ok p =>
        obtain ⟨st2, n⟩ := p
        rw [hrun] at h
        simp only [Prod.mk.injEq, Except.ok.injEq] at h
        obtain ⟨⟨hi, hk⟩, hst⟩ := h
        have hle : n ≤ (dedupeSpeakers batch).length := by
          have := runChunks_ok_count_le gen _ _ _ _ _ _ hrun
          rwa [chunks200_sum_length] at this
        have hle2 : (dedupeSpeakers batch).length ≤ batch.length :=
          dedupeAux_length_le batch []
        omega
      | error e => rw [hrun] at h; cases h

/-- Witness for C4 on a concrete successful import: two records, one a
case-insensitive duplicate of the other, give `importedCount = 1` and
`skippedCount = 1`. -/
theorem claim_C4_witness :
    bulkEndpoint (fun n => toString n) []
        (.array [{ SpeakerData.blank with businessEmail := "a@x.com" },
                 { SpeakerData.blank with businessEmail := "A@X.com" }]) none =
      (.ok (1, 1), [{ SpeakerData.blank with businessEmail := "a@x.com", id := "0" }]) ∧
    (1 + 1 = 2) :=
  ⟨by decide,
   claim_C4_counts (fun n => toString n) []
     [{ SpeakerData.blank with businessEmail := "a@x.com" },
      { SpeakerData.blank with businessEmail := "A@X.com" }] none 1 1
     [{ SpeakerData.blank with businessEmail := "a@x.com", id := "0" }]
     (by decide)⟩

/-! ## The duplicate checker -/

theorem emailCheck_of_mem (store : List SpeakerData) (r : SpeakerData)
    (hr : r ∈ store) : emailCheckEndpoint store r.businessEmail none = true := by
  simp only [emailCheckEndpoint, List.any_eq_true]
  exact ⟨r, hr, by simp⟩

/-- **C8.** The duplicate checker returns true exactly when some stored
record has exactly (case-sensitively) the candidate `businessEmail` and,
when an excluded id is supplied, a different id; in particular it flags the
email of any record present after a committed bulk import, and it returns
false when the only exact match is the excluded record itself. -/
theorem claim_C8_duplicate_checker :
    (∀ (store : List SpeakerData) (e : String) (x : Option String),
      emailCheckEndpoint store e x = true ↔
        ∃ r ∈ store, r.businessEmail = e ∧ ∀ i, x = some i → r.id ≠ i) ∧
    (∀ (gen : Nat → String) (store batch st' : List SpeakerData)
        (failAt : Option Nat) (i k : Nat) (r : SpeakerData),
      bulkEndpoint gen store (.array batch) failAt = (.ok (i, k), st') →
      r ∈ st' →
      emailCheckEndpoint st' r.businessEmail none = true) ∧
    (∀ (store : List SpeakerData) (r : SpeakerData),
      r ∈ store →
      (∀ t ∈ store, t.businessEmail = r.businessEmail → t.id = r.id) →
      emailCheckEndpoint store r.businessEmail (some r.id) = false) := by
  refine ⟨?_, ?_, ?_⟩
  · intro store e x
    cases x with
    | none => simp [emailCheckEndpoint, List.any_eq_true]
    | some ex => simp [emailCheckEndpoint, List.any_eq_true]
  · intro gen store batch st' failAt i k r _ hr
    exact emailCheck_of_mem st' r hr
  · intro store r _ huniq
    simp only [emailCheckEndpoint, List.any_eq_false]
    intro t ht
    by_cases he : t.businessEmail = r.businessEmail
    · simp [he, huniq t ht he]
    · simp [he]

/-- Witness for C8: a store with a single record; its email is reported in
use after a bulk import that created it, and not in use when its own id is
excluded. -/
theorem claim_C8_witness :
    ({ SpeakerData.blank with businessEmail := "a@x.com", id := "0" } ∈
      [{ SpeakerData.blank with businessEmail := "a@x.com", id := "0" }]) ∧
    emailCheckEndpoint [{ SpeakerData.blank with businessEmail := "a@x.com", id := "0" }]
      "a@x.com" (some "0") = false :=
  ⟨by decide,
   claim_C8_duplicate_checker.2.2
     [{ SpeakerData.blank with businessEmail := "a@x.com", id := "0" }]
     { SpeakerData.blank with businessEmail := "a@x.com", id := "0" }
     (by decide) (by decide)⟩

/-! ## Behaviour of a failure-free bulk import -/

/-- The records of a batch as the bulk insert persists them: each one with
the fresh id drawn from the id supply at its position. -/
def withIds (gen : Nat → String) : Nat → List SpeakerData → List SpeakerData
  | _, [] => []
  | ctr, s :: rest => { s with id := gen ctr } :: withIds gen (ctr + 1) rest

theorem withIds_map_email (gen : Nat → String) :
    ∀ (rows : List SpeakerData) (ctr : Nat),
      (withIds gen ctr rows).map SpeakerData.businessEmail =
        rows.map SpeakerData.businessEmail := by
  intro rows
  induction rows with
  | nil => intro ctr; rfl
  | cons s rest ih => intro ctr; simp [withIds, ih (ctr + 1)]

theorem insertRows_append (gen : Nat → String) :
    ∀ (a b : List SpeakerData) (ctr : Nat) (store : List SpeakerData),
      insertRows gen ctr store (a ++ b) =
        ((insertRows gen (ctr + a.length) (insertRows gen ctr store a).1 b).1,
         (insertRows gen ctr store a).2 +
           (insertRows gen (ctr + a.length) (insertRows gen ctr store a).1 b).2) := by
  intro a
  induction a with
  | nil => intro b ctr store; simp [insertRows]
  | cons x xs ihx =>
    intro b ctr store
    simp only [List.cons_append, insertRows, List.append_eq, ihx b (ctr + 1),
      List.length_cons, Nat.add_assoc]
    rw [Nat.add_comm 1 xs.length]

theorem runChunks_none (gen : Nat → String) :
    ∀ (chunks : List (List SpeakerData)) (ctr : Nat) (store : List SpeakerData),
      runChunks gen ctr store none chunks =
        .ok (insertRows gen ctr store chunks.flatten) := by
  intro chunks
  induction chunks with
  | nil => intro ctr store; rw [runChunks, List.flatten_nil, insertRows]
  | cons c rest ih =>
    intro ctr store
    rw [runChunks, if_neg (by simp), List.flatten_cons]
    have hmap : (none : Option Nat).map (fun n => n - 1) = none := rfl
    rw [hmap, ih (ctr + c.length) (insertRows gen ctr store c).1,
      insertRows_append gen c rest.flatten ctr store]

theorem insertRows_all_conflict (gen : Nat → String) :
    ∀ (rows : List SpeakerData) (ctr : Nat) (store : List SpeakerData),
      (∀ s ∈ rows, ∃ r ∈ store, r.businessEmail = s.businessEmail) →
      insertRows gen ctr store rows = (store, 0) := by
  intro rows
  induction rows with
  | nil => intro ctr store _; rfl
  | cons s rest ih =>
    intro ctr store h
    have hs : ∃ r ∈ store, r.businessEmail = s.businessEmail :=
      h s (List.mem_cons_self s rest)
    have hany : store.any
        (fun r => r.businessEmail == ({ s with id := gen ctr } : SpeakerData).businessEmail)
        = true := by
      rw [List.any_eq_true]
      obtain ⟨r, hr, he⟩ := hs
      exact ⟨r, hr, by simpa using he⟩
    rw [insertRows, insertSpeakerRow, if_pos hany]
    rw [ih (ctr + 1) store (fun t ht => h t (List.mem_cons_of_mem s ht))]
    rfl

theorem insertRows_all_new (gen : Nat → String) :
    ∀ (rows : List SpeakerData) (ctr : Nat) (store : List SpeakerData),
      (∀ s ∈ rows, ∀ r ∈ store, r.businessEmail ≠ s.businessEmail) →
      rows.Pairwise (fun a b => a.businessEmail ≠ b.businessEmail) →
      insertRows gen ctr store rows = (store ++ withIds gen ctr rows, rows.length) := by
  intro rows
  induction rows with
  | nil => intro ctr store _ _; simp [insertRows, withIds]
  | cons s rest ih =>
    intro ctr store hnew hpw
    have hany : store.any
        (fun r => r.businessEmail == ({ s with id := gen ctr } : SpeakerData).businessEmail)
        = false := by
      rw [List.any_eq_false]
      intro r hr
      simpa using hnew s (List.mem_cons_self s rest) r hr
    rw [insertRows, insertSpeakerRow, if_neg (by rw [hany]; exact Bool.false_ne_true)]
    rw [List.pairwise_cons] at hpw
    have hrest : ∀ t ∈ rest, ∀ r ∈ store ++ [{ s with id := gen ctr }],
        r.businessEmail ≠ t.businessEmail := by
      intro t ht r hr
      rcases List.mem_append.mp hr with h1 | h1
      · exact hnew t (List.mem_cons_of_mem s ht) r h1
      · have : r = { s with id := gen ctr } := List.mem_singleton.mp h1
        subst this
        simpa using hpw.1 t ht
    rw [ih (ctr + 1) _ hrest hpw.2]
    simp [withIds, List.length_cons, Nat.add_comm]

theorem dedupeAux_id (l : List SpeakerData) :
    ∀ seen : List String,
      (∀ s ∈ l, s.businessEmail ≠ "") →
      (∀ s ∈ l, jsToLowerCase s.businessEmail ∉ seen) →
      l.Pairwise (fun a b => jsToLowerCase a.businessEmail ≠ jsToLowerCase b.businessEmail) →
      dedupeAux seen l = l := by
  induction l with
  | nil => intro seen _ _ _; rfl
  | cons s rest ih =>
    intro seen hne hseen hpw
    rw [List.pairwise_cons] at hpw
    rw [dedupeAux, if_neg (hne s (List.mem_cons_self s rest)),
      if_neg (hseen s (List.mem_cons_self s rest))]
    congr 1
    apply ih
    · exact fun t ht => hne t (List.mem_cons_of_mem s ht)
    · intro t ht
      rw [List.mem_cons]
      push_neg
      exact ⟨fun he => hpw.1 t ht he.symm, hseen t (List.mem_cons_of_mem s ht)⟩
    · exact hpw.2

theorem pairwise_email_of_lower (l : List SpeakerData)
    (h : l.Pairwise (fun a b => jsToLowerCase a.businessEmail ≠ jsToLowerCase b.businessEmail)) :
    l.Pairwise (fun a b => a.businessEmail ≠ b.businessEmail) := by
  refine h.imp ?_
  intro a b hab he
  exact hab (by rw [he])

theorem bulkEndpoint_fresh (gen : Nat → String) (store batch : List SpeakerData)
    (hne : batch ≠ [])
    (hmail : ∀ s ∈ batch, s.businessEmail ≠ "")
    (hdist : batch.Pairwise
      (fun a b => jsToLowerCase a.businessEmail ≠ jsToLowerCase b.businessEmail))
    (habsent : ∀ s ∈ batch, ∀ r ∈ store, r.businessEmail ≠ s.businessEmail) :
    bulkEndpoint gen store (.array batch) none =
      (.ok (batch.length, 0), store ++ withIds gen 0 batch) := by
  have h0 : ¬(batch.length = 0) := by simpa [List.length_eq_zero] using hne
  have hded : dedupeSpeakers batch = batch :=
    dedupeAux_id batch [] hmail (fun s _ => List.not_mem_nil _) hdist
  rw [bulkEndpoint, dedupeSpeakers] at *
  rw [hded, if_neg h0, if_neg h0, runChunks_none gen (chunks200 batch) 0 store,
    chunks200_flatten batch,
    insertRows_all_new gen batch 0 store habsent (pairwise_email_of_lower batch hdist)]
  simp [Nat.sub_self]

theorem bulkEndpoint_all_conflict (gen : Nat → String)
    (store batch : List SpeakerData)
    (hne : batch ≠ [])
    (hmail : ∀ s ∈ batch, s.businessEmail ≠ "")
    (hdist : batch.Pairwise
      (fun a b => jsToLowerCase a.businessEmail ≠ jsToLowerCase b.businessEmail))
    (hconf : ∀ s ∈ batch, ∃ r ∈ store, r.businessEmail = s.businessEmail) :
    bulkEndpoint gen store (.array batch) none = (.ok (0, batch.length), store) := by
  have h0 : ¬(batch.length = 0) := by simpa [List.length_eq_zero] using hne
  have hded : dedupeSpeakers batch = batch :=
    dedupeAux_id batch [] hmail (fun s _ => List.not_mem_nil _) hdist
  rw [bulkEndpoint, dedupeSpeakers] at *
  rw [hded, if_neg h0, if_neg h0, runChunks_none gen (chunks200 batch) 0 store,
    chunks200_flatten batch, insertRows_all_conflict gen batch 0 store hconf]
  simp

/-- Counterexample to **C5** as stated: "pairwise-distinct businessEmails
none already in the store" is not enough for the first run to import all
`N` records. Two string-distinct but case-insensitively equal emails give
`importedCount = 1 ≠ 2` (the in-batch dedupe is case-insensitive); a single
record with an empty email gives `importedCount = 0 ≠ 1`; and an empty
batch is answered with an error, not a count result. -/
theorem claim_C5_counterexample :
    (({ SpeakerData.blank with businessEmail := "a@x.com" } : SpeakerData).businessEmail ≠
      ({ SpeakerData.blank with businessEmail := "A@X.com" } : SpeakerData).businessEmail) ∧
    (bulkEndpoint (fun n => toString n) []
        (.array [{ SpeakerData.blank with businessEmail := "a@x.com" },
                 { SpeakerData.blank with businessEmail := "A@X.com" }]) none).1 =
      .ok (1, 1) ∧
    (1 : Nat) ≠ 2 ∧
    (bulkEndpoint (fun n => toString n) [] (.array [SpeakerData.blank]) none).1 =
      .ok (0, 1) ∧
    (0 : Nat) ≠ 1 ∧
    bulkEndpoint (fun n => toString n) [] (.array []) none =
      (.error "No speaker data provided.", []) := by
  refine ⟨by decide, by decide, by decide, by decide, by decide, by decide⟩

/-- **C5 (amended).** For a non-empty batch whose `businessEmail`s are
non-empty and pairwise distinct after lower-casing, none of them exactly
equal to a stored record's email, the bulk import is idempotent: the first
run imports all `N` records (appending them with fresh ids), and a second
run of the same batch against the resulting store imports 0, skips `N`,
and leaves the store unchanged. -/
theorem claim_C5_idempotent_amended (gen1 gen2 : Nat → String)
    (store batch : List SpeakerData)
    (hne : batch ≠ [])
    (hmail : ∀ s ∈ batch, s.businessEmail ≠ "")
    (hdist : batch.Pairwise
      (fun a b => jsToLowerCase a.businessEmail ≠ jsToLowerCase b.businessEmail))
    (habsent : ∀ s ∈ batch, ∀ r ∈ store, r.businessEmail ≠ s.businessEmail) :
    bulkEndpoint gen1 store (.array batch) none =
      (.ok (batch.length, 0), store ++ withIds gen1 0 batch) ∧
    bulkEndpoint gen2 (store ++ withIds gen1 0 batch) (.array batch) none =
      (.ok (0, batch.length), store ++ withIds gen1 0 batch) := by
  refine ⟨bulkEndpoint_fresh gen1 store batch hne hmail hdist habsent, ?_⟩
  apply bulkEndpoint_all_conflict gen2 _ batch hne hmail hdist
  intro s hs
  have hmem : s.businessEmail ∈
      (withIds gen1 0 batch).map SpeakerData.businessEmail := by
    rw [withIds_map_email]
    exact List.mem_map_of_mem _ hs
  obtain ⟨r, hr, hre⟩ := List.mem_map.mp hmem
  exact ⟨r, List.mem_append_right store hr, hre⟩

/-- Witness for the amended C5 on a concrete two-record batch. -/
theorem claim_C5_witness :
    ([{ SpeakerData.blank with businessEmail := "a@x.com" },
      { SpeakerData.blank with businessEmail := "b@x.com" }] ≠
        ([] : List SpeakerData)) ∧
    bulkEndpoint (fun n => toString n) []
        (.array [{ SpeakerData.blank with businessEmail := "a@x.com" },
                 { SpeakerData.blank with businessEmail := "b@x.com" }]) none =
      (.ok (2, 0),
       [] ++ withIds (fun n => toString n) 0
         [{ SpeakerData.blank with businessEmail := "a@x.com" },
          { SpeakerData.blank with businessEmail := "b@x.com" }]) :=
  ⟨by decide,
   (claim_C5_idempotent_amended (fun n => toString n) (fun n => toString n) []
     [{ SpeakerData.blank with businessEmail := "a@x.com" },
      { SpeakerData.blank with businessEmail := "b@x.com" }]
     (by decide) (by decide) (by decide) (by decide)).1⟩

/-! ## Store-wide email uniqueness -/

/-- At most one stored record per distinct `businessEmail`, compared
exactly (case-sensitively). -/
def EmailsUnique (store : List SpeakerData) : Prop :=
  store.Pairwise (fun a b => a.businessEmail ≠ b.businessEmail)

theorem insertSpeakerRow_unique (store : List SpeakerData) (row : SpeakerData)
    (h : EmailsUnique store) : EmailsUnique (insertSpeakerRow store row).1 := by
  rw [insertSpeakerRow]
  by_cases hc : store.any (fun r => r.businessEmail == row.businessEmail) = true
  · rw [if_pos hc]; exact h
  · rw [if_neg hc]
    have hfalse : store.any (fun r => r.businessEmail == row.businessEmail) = false :=
      Bool.eq_false_iff.mpr hc
    rw [EmailsUnique, List.pairwise_append]
    refine ⟨h, List.pairwise_singleton _ _, ?_⟩
    intro a ha b hb
    have hb' : b = row := List.mem_singleton.mp hb
    subst hb'
    simpa using List.any_eq_false.mp hfalse a ha

theorem insertSpeakerRow_extends (store : List SpeakerData) (row : SpeakerData) :
    ∃ t, (insertSpeakerRow store row).1 = store ++ t := by
  rw [insertSpeakerRow]
  by_cases hc : store.any (fun r => r.businessEmail == row.businessEmail) = true
  · rw [if_pos hc]; exact ⟨[], (List.append_nil store).symm⟩
  · rw [if_neg hc]; exact ⟨[row], rfl⟩

theorem insertRows_store (gen : Nat → String) :
    ∀ (rows : List SpeakerData) (ctr : Nat) (store : List SpeakerData),
      (EmailsUnique store → EmailsUnique (insertRows gen ctr store rows).1) ∧
      (∃ t, (insertRows gen ctr store rows).1 = store ++ t) := by
  intro rows
  induction rows with
  | nil =>
    intro ctr store
    exact ⟨fun h => h, ⟨[], (List.append_nil store).symm⟩⟩
  | cons s rest ih =>
    intro ctr store
    rw [insertRows]
    obtain ⟨ih1, t2, ih2⟩ := ih (ctr + 1) (insertSpeakerRow store { s with id := gen ctr }).1
    obtain ⟨t1, hext⟩ := insertSpeakerRow_extends store { s with id := gen ctr }
    constructor
    · intro h
      exact ih1 (insertSpeakerRow_unique store _ h)
    · exact ⟨t1 ++ t2, by rw [ih2, hext, List.append_assoc]⟩

theorem runChunks_ok_store (gen : Nat → String) :
    ∀ (chunks : List (List SpeakerData)) (ctr : Nat) (store : List SpeakerData)
      (failAt : Option Nat) (st : List SpeakerData) (n : Nat),
      runChunks gen ctr store failAt chunks = .ok (st, n) →
      (EmailsUnique store → EmailsUnique st) ∧ (∃ t, st = store ++ t) := by
  intro chunks
  induction chunks with
  | nil =>
    intro ctr store failAt st n h
    rw [runChunks] at h
    cases h
    exact ⟨fun h => h, ⟨[], (List.append_nil store).symm⟩⟩
  | cons c rest ih =>
    intro ctr store failAt st n h
    rw [runChunks] at h
    by_cases hf : failAt = some 0
    · rw [if_pos hf] at h; cases h
    · rw [if_neg hf] at h
      cases hrun : runChunks gen (ctr + c.length) (insertRows gen ctr store c).1
          (failAt.map (fun n => n - 1)) rest with
      | ok p =>
        obtain ⟨st2, n2⟩ := p
        rw [hrun] at h
        cases h
        obtain ⟨hu, t2, hext⟩ := ih _ _ _ _ _ hrun
        obtain ⟨hu1, t1, hext1⟩ := insertRows_store gen c ctr store
        exact ⟨fun h => hu (hu1 h),
          ⟨t1 ++ t2, by rw [hext, hext1, List.append_assoc]⟩⟩
      | error e => rw [hrun] at h; cases h

theorem bulkEndpoint_store (gen : Nat → String) (store : List SpeakerData)
    (body : BulkBody) (failAt : Option Nat) :
    (EmailsUnique store → EmailsUnique (bulkEndpoint gen store body failAt).2) ∧
    (∃ t, (bulkEndpoint gen store body failAt).2 = store ++ t) := by
  have hid : (EmailsUnique store → EmailsUnique store) ∧
      (∃ t, store = store ++ t) :=
    ⟨fun h => h, ⟨[], (List.append_nil store).symm⟩⟩
  cases body with
  | missing => exact hid
  | notArray => exact hid
  | array speakers =>
    rw [bulkEndpoint]
    by_cases h0 : speakers.length = 0
    · rw [if_pos h0]; exact hid
    · rw [if_neg h0]
      by_cases h1 : (dedupeSpeakers speakers).length = 0
      · rw [if_pos h1]; exact hid
      · rw [if_neg h1]
        cases hrun : runChunks gen 0 store failAt (chunks200 (dedupeSpeakers speakers)) with
        | ok p =>
          obtain ⟨st2, n2⟩ := p
          exact runChunks_ok_store gen _ _ _ _ _ _ hrun
        | error e => exact hid

theorem singleAddEndpoint_store (gen : Nat → String) (store : List SpeakerData)
    (s : SpeakerData) :
    (EmailsUnique store → EmailsUnique (singleAddEndpoint gen store s).2) ∧
    (∃ t, (singleAddEndpoint gen store s).2 = store ++ t) := by
  rw [singleAddEndpoint]
  by_cases hc : store.any
      (fun r => r.businessEmail == ({ s with id := gen 0 } : SpeakerData).businessEmail)
      = true
  · rw [if_pos hc]
    exact ⟨fun h => h, ⟨[], (List.append_nil store).symm⟩⟩
  · rw [if_neg hc]
    constructor
    · intro h
      have := insertSpeakerRow_unique store { s with id := gen 0 } h
      rwa [insertSpeakerRow, if_neg hc] at this
    · exact ⟨[{ s with id := gen 0 }], rfl⟩

/-- Counterexample to **C1** as stated: store-level uniqueness is NOT
case-insensitive. Bulk-importing `"a@x.com"` and then, in a second
request, `"A@X.com"` yields a reachable store holding two distinct records
with non-empty, case-insensitively equal business emails — the second
insert was not rejected, because the conflict check of
`ON CONFLICT ("businessEmail")` and of the duplicate-check queries compares
emails exactly. -/
theorem claim_C1_counterexample :
    Reachable [{ SpeakerData.blank with businessEmail := "a@x.com", id := "0" },
               { SpeakerData.blank with businessEmail := "A@X.com", id := "0" }] ∧
    ({ SpeakerData.blank with businessEmail := "a@x.com", id := "0" } : SpeakerData) ≠
      { SpeakerData.blank with businessEmail := "A@X.com", id := "0" } ∧
    ({ SpeakerData.blank with businessEmail := "a@x.com", id := "0" } : SpeakerData).businessEmail ≠ "" ∧
    ({ SpeakerData.blank with businessEmail := "A@X.com", id := "0" } : SpeakerData).businessEmail ≠ "" ∧
    jsToLowerCase ({ SpeakerData.blank with businessEmail := "a@x.com", id := "0" } : SpeakerData).businessEmail =
      jsToLowerCase ({ SpeakerData.blank with businessEmail := "A@X.com", id := "0" } : SpeakerData).businessEmail := by
  refine ⟨?_, by decide, by decide, by decide, by decide⟩
  have h1 : (bulkEndpoint (fun n => toString n) []
      (.array [{ SpeakerData.blank with businessEmail := "a@x.com" }]) none).2 =
      [{ SpeakerData.blank with businessEmail := "a@x.com", id := "0" }] := by decide
  have h2 : (bulkEndpoint (fun n => toString n)
      [{ SpeakerData.blank with businessEmail := "a@x.com", id := "0" }]
      (.array [{ SpeakerData.blank with businessEmail := "A@X.com" }]) none).2 =
      [{ SpeakerData.blank with businessEmail := "a@x.com", id := "0" },
       { SpeakerData.blank with businessEmail := "A@X.com", id := "0" }] := by decide
  have R1 : Reachable [{ SpeakerData.blank with businessEmail := "a@x.com", id := "0" }] :=
    h1 ▸ Reachable.bulk [] (fun n => toString n)
      (.array [{ SpeakerData.blank with businessEmail := "a@x.com" }]) none Reachable.init
  exact h2 ▸ Reachable.bulk _ (fun n => toString n)
    (.array [{ SpeakerData.blank with businessEmail := "A@X.com" }]) none R1

/-- **C1 (amended).** With exact (case-sensitive) email comparison — the
semantics of the store's unique constraint — the invariant holds: every
store state reachable through single add and bulk import has at most one
record per distinct `businessEmail`; neither operation ever removes or
overwrites a stored record (the store only ever grows by appending); and a
single add whose email exactly matches a stored record's is rejected with
an error, leaving the store unchanged. -/
theorem claim_C1_exact_uniqueness :
    (∀ st, Reachable st → EmailsUnique st) ∧
    (∀ (gen : Nat → String) (store : List SpeakerData) (s : SpeakerData),
      ∃ t, (singleAddEndpoint gen store s).2 = store ++ t) ∧
    (∀ (gen : Nat → String) (store : List SpeakerData) (body : BulkBody)
        (failAt : Option Nat),
      ∃ t, (bulkEndpoint gen store body failAt).2 = store ++ t) ∧
    (∀ (gen : Nat → String) (store : List SpeakerData) (s : SpeakerData),
      (∃ r ∈ store, r.businessEmail = s.businessEmail) →
      singleAddEndpoint gen store s =
        (.error "duplicate key value violates unique constraint", store)) := by
  refine ⟨?_, ?_, ?_, ?_⟩
  · intro st h
    induction h with
    | init => exact List.Pairwise.nil
    | single st gen s _ ih => exact (singleAddEndpoint_store gen st s).1 ih
    | bulk st gen body failAt _ ih => exact (bulkEndpoint_store gen st body failAt).1 ih
  · intro gen store s
    exact (singleAddEndpoint_store gen store s).2
  · intro gen store body failAt
    exact (bulkEndpoint_store gen store body failAt).2
  · intro gen store s hs
    obtain ⟨r, hr, he⟩ := hs
    have hany : store.any
        (fun t => t.businessEmail == ({ s with id := gen 0 } : SpeakerData).businessEmail)
        = true := by
      rw [List.any_eq_true]
      exact ⟨r, hr, by simpa using he⟩
    rw [singleAddEndpoint, if_pos hany]

/-- Witness for the amended C1: the empty store is reachable and unique,
and a concrete colliding single add is rejected. -/
theorem claim_C1_witness :
    EmailsUnique ([] : List SpeakerData) ∧
    (∃ r ∈ [{ SpeakerData.blank with businessEmail := "a@x.com", id := "1" }],
      r.businessEmail =
        ({ SpeakerData.blank with businessEmail := "a@x.com" } : SpeakerData).businessEmail) ∧
    singleAddEndpoint (fun n => toString n)
        [{ SpeakerData.blank with businessEmail := "a@x.com", id := "1" }]
        { SpeakerData.blank with businessEmail := "a@x.com" } =
      (.error "duplicate key value violates unique constraint",
       [{ SpeakerData.blank with businessEmail := "a@x.com", id := "1" }]) :=
  ⟨claim_C1_exact_uniqueness.1 [] Reachable.init,
   by decide,
   claim_C1_exact_uniqueness.2.2.2 (fun n => toString n)
     [{ SpeakerData.blank with businessEmail := "a@x.com", id := "1" }]
     { SpeakerData.blank with businessEmail := "a@x.com" }
     (by decide)⟩

/-! ## The record coercer (CSV import admission)

`src/api/index.js` 440-458 (POST `/speakers/upload-csv`) and the equivalent
client-side loop in `src/components/UserPanel.tsx` 244-263: each remapped
row is admitted into `dataToImport` only when
`row.businessEmail && String(row.businessEmail).trim()` is truthy, and an
admitted row is coerced to a full record with string defaults, a derived
`fullName` and boolean coercions. A remapped row is a partial record: a
field the CSV did not provide is absent (`none`). -/

/-- A remapped CSV row: canonical fields, each possibly absent. -/
structure MappedRow where
  id : Option String := none
  createdBy : Option String := none
  firstName : Option String := none
  lastName : Option String := none
  title : Option String := none
  company : Option String := none
  businessEmail : Option String := none
  country : Option String := none
  website : Option String := none
  fullName : Option String := none
  isEmailValid : Option String := none
  isLinkedInValid : Option String := none
  isWebsiteValid : Option String := none
  extractedRole : Option String := none
  isCeo : Option String := none
  isSpeaker : Option String := none
  isAuthor : Option String := none
  industry : Option String := none
  personLinkedinUrl : Option String := none
  stage : Option String := none
  phoneNumber : Option String := none
  employees : Option String := none
  location : Option String := none
  city : Option String := none
  state : Option String := none
  companyAddress : Option String := none
  companyCity : Option String := none
  companyState : Option String := none
  companyCountry : Option String := none
  companyPhone : Option String := none
  secondaryEmail : Option String := none
  speakingTopic : Option String := none
  speakingLink : Option String := none
  deriving DecidableEq, Repr

/-- Model of JavaScript `String.prototype.trim`: leading and trailing
whitespace removed. -/
def jsTrim (s : String) : String :=
  String.mk (((s.data.dropWhile Char.isWhitespace).reverse.dropWhile
    Char.isWhitespace).reverse)

/-- `getBool` from the CSV import:
`['true', '1', 'yes'].includes(String(row[key] ?? '').toLowerCase())`. -/
def getBool (v : Option String) : Bool :=
  jsToLowerCase (v.getD "") == "true" || jsToLowerCase (v.getD "") == "1" ||
    jsToLowerCase (v.getD "") == "yes"

/-- The admission test guarding `dataToImport.push`:
`row.businessEmail && String(row.businessEmail).trim()` — an absent or
empty email is falsy, and a whitespace-only email trims to the falsy empty
string. -/
def coercerAdmits (row : MappedRow) : Bool :=
  match row.businessEmail with
  | none => false
  | some e => !(e == "") && !(jsTrim e == "")

/-- The coercion of one admitted row (`src/api/index.js` 444-456): string
fields default to the empty string (`row.x || ''`), `fullName` falls back
to the trimmed concatenation of first and last name, booleans go through
`getBool`, `createdBy` is injected from the caller, and no id is set (ids
are generated at insert time). -/
def coerceRow (createdBy : String) (row : MappedRow) : SpeakerData where
  id := ""
  createdBy := createdBy
  firstName := row.firstName.getD ""
  lastName := row.lastName.getD ""
  title := row.title.getD ""
  company := row.company.getD ""
  businessEmail := row.businessEmail.getD ""
  country := row.country.getD ""
  website := row.website.getD ""
  fullName :=
    if row.fullName.getD "" = "" then
      jsTrim (row.firstName.getD "" ++ " " ++ row.lastName.getD "")
    else row.fullName.getD ""
  isEmailValid := getBool row.isEmailValid
  isLinkedInValid := getBool row.isLinkedInValid
  isWebsiteValid := getBool row.isWebsiteValid
  extractedRole := row.extractedRole.getD ""
  isCeo := getBool row.isCeo
  isSpeaker := getBool row.isSpeaker
  isAuthor := getBool row.isAuthor
  industry := row.industry.getD ""
  personLinkedinUrl := row.personLinkedinUrl.getD ""
  stage := row.stage.getD ""
  phoneNumber := row.phoneNumber.getD ""
  employees := row.employees.getD ""
  location := row.location.getD ""
  city := row.city.getD ""
  state := row.state.getD ""
  companyAddress := row.companyAddress.getD ""
  companyCity := row.companyCity.getD ""
  companyState := row.companyState.getD ""
  companyCountry := row.companyCountry.getD ""
  companyPhone := row.companyPhone.getD ""
  secondaryEmail := row.secondaryEmail.getD ""
  speakingTopic := row.speakingTopic.getD ""
  speakingLink := row.speakingLink.getD ""

/-- The `for (const row of remappedData) { if (...) dataToImport.push(...) }`
loop building the coerced batch. -/
def dataToImport (createdBy : String) : List MappedRow → List SpeakerData
  | [] => []
  | row :: rest =>
    if coercerAdmits row then
      coerceRow createdBy row :: dataToImport createdBy rest
    else dataToImport createdBy rest

theorem coercerAdmits_eq_true_iff (row : MappedRow) :
    coercerAdmits row = true ↔
      ∃ e, row.businessEmail = some e ∧ ¬(jsTrim e = "") := by
  cases hb : row.businessEmail with
  | none => simp [coercerAdmits, hb]
  | some e =>
    simp only [coercerAdmits, hb, Bool.and_eq_true, Bool.not_eq_true',
      beq_eq_false_iff_ne, Option.some.injEq]
    constructor
    · rintro ⟨_, h2⟩
      exact ⟨e, rfl, h2⟩
    · rintro ⟨e', he', h2⟩
      subst he'
      refine ⟨?_, h2⟩
      intro hemp
      apply h2
      rw [hemp]
      decide

theorem coercerAdmits_eq_false_iff (row : MappedRow) :
    coercerAdmits row = false ↔
      row.businessEmail = none ∨ ∃ e, row.businessEmail = some e ∧ jsTrim e = "" := by
  rw [← Bool.not_eq_true, coercerAdmits_eq_true_iff row]
  push_neg
  cases hb : row.businessEmail with
  | none => simp
  | some e =>
    simp only [hb, Option.some.injEq, reduceCtorEq, false_or]
    constructor
    · intro h
      exact ⟨e, rfl, h e rfl⟩
    · rintro ⟨e', he', ht⟩ e'' he''
      subst he'
      subst he''
      exact ht

/-- **C6.** The record coercer excludes a remapped row from the output
batch exactly when its mapped `businessEmail` is absent, empty, or
whitespace-only; every other row is admitted (and coerced). The output
batch is precisely the admitted rows, coerced, in order. -/
theorem claim_C6_coercer_admission :
    (∀ (createdBy : String) (rows : List MappedRow),
      dataToImport createdBy rows =
        (rows.filter coercerAdmits).map (coerceRow createdBy)) ∧
    (∀ row : MappedRow, coercerAdmits row = true ↔
      ∃ e, row.businessEmail = some e ∧ ¬(jsTrim e = "")) ∧
    (∀ row : MappedRow, coercerAdmits row = false ↔
      (row.businessEmail = none ∨ ∃ e, row.businessEmail = some e ∧ jsTrim e = "")) := by
  refine ⟨?_, coercerAdmits_eq_true_iff, coercerAdmits_eq_false_iff⟩
  intro createdBy rows
  induction rows with
  | nil => rfl
  | cons row rest ih =>
    by_cases h : coercerAdmits row = true
    · rw [dataToImport, if_pos h, List.filter_cons, if_pos h, List.map_cons, ih]
    · rw [dataToImport, if_neg h, List.filter_cons, if_neg h, ih]

end SpeakerDB
